import Mathlib

/-
  Verification of the todo-list REST server
  (src/week-2/Week-2-Assignments/02-nodejs/todoServer.js)
  against its natural-language specification.

  The server stores the todo collection as one JSON array in a file
  (todos.json).  We model JSON values shallowly (JVal), a JSON object as an
  association list of key/value pairs (JObj, keys unique in any object
  produced by Javascript), and the storage file as either a readable parsed
  array of records (StorageState.ok) or an unreadable / missing / corrupt
  document (StorageState.bad), on which every read rejects with a
  StorageError.
-/

namespace TodoServer

/-- A (sufficient fragment of a) JSON value. -/
inductive JVal where
  | str (s : String)
  | bool (b : Bool)
  | num (n : Int)
  | null
  deriving DecidableEq

/-- A JSON object: an association list of field bindings, as produced by
parsing a JSON document.  Javascript objects have at most one binding per
key; theorems that need this state it as a Nodup hypothesis. -/
abbrev JObj := List (String × JVal)

/-- Property access o.k in Javascript: the value of the first binding of
key k, or none (undefined) when the object has no such field. -/
def jget : JObj → String → Option JVal
  | [], _ => none
  | (k, v) :: rest, key => if k = key then some v else jget rest key

/-- Writing a single field: replace the value at the first binding of the
key if present (keeping its position, as Javascript objects keep key
order), otherwise append the new binding at the end. -/
def jset : JObj → String → JVal → JObj
  | [], k, v => [(k, v)]
  | (k', v') :: rest, k, v =>
    if k' = k then (k, v) :: rest else (k', v') :: jset rest k v

/-- Javascript object spread: the source expression written
as spread of a then spread of b.  Every binding of b is written into a in
order; fields of b overwrite fields of a, fields only in a are kept. -/
def jmerge (a b : JObj) : JObj :=
  b.foldl (fun acc kv => jset acc kv.1 kv.2) a

/-- The comparison in the store: todo.id === id, where id is the (string)
route parameter.  A record lacking an id field, or whose id is not a
string, compares unequal. -/
def hasId (t : JObj) (i : String) : Bool :=
  jget t "id" = some (JVal.str i)

/-- The persisted document: either the parsed array of records, or a
missing / unreadable / corrupt file. -/
inductive StorageState where
  | ok (todos : List JObj)
  | bad
  deriving DecidableEq

/-- Store-level failures: a StorageError from the file layer, or the
thrown `Todo does not exists` error of the update and delete helpers. -/
inductive StoreErr where
  | storage
  | notFound
  deriving DecidableEq

/-- find(): reads todos.json and parses it; rejects with a StorageError
when the document is missing, unreadable or not valid JSON. -/
def find : StorageState → Except StoreErr (List JObj)
  | .ok todos => .ok todos
  | .bad => .error .storage

/-- findById(id): linear scan, `todos.filter(t => t.id === id)[0] ?? null`. -/
def findById (s : StorageState) (i : String) : Except StoreErr (Option JObj) :=
  match find s with
  | .error e => .error e
  | .ok todos => .ok ((todos.filter (fun t => hasId t i)).head?)

/-- save(data): read the collection, push the new record at the end,
rewrite the whole document, resolve with the record. -/
def save (s : StorageState) (data : JObj) :
    Except StoreErr (JObj × StorageState) :=
  match find s with
  | .error e => .error e
  | .ok todos => .ok (data, .ok (todos ++ [data]))

/-- updateByIdAndUpdate(todoId, update): look the record up; when absent
throw `Todo does not exists`; otherwise merge the partial update over the
existing record (spread of todo then spread of update), replace the record
in place at its index (splice at findIndex), rewrite the document and
resolve with the merged record. -/
def updateByIdAndUpdate (s : StorageState) (todoId : String) (update : JObj) :
    Except StoreErr (JObj × StorageState) :=
  match findById s todoId with
  | .error e => .error e
  | .ok none => .error .notFound
  | .ok (some todo) =>
    let merged := jmerge todo update
    match find s with
    | .error e => .error e
    | .ok todos =>
      .ok (merged, .ok (todos.set (todos.findIdx (fun t => hasId t todoId)) merged))

/-- deleteById(todoId): look the record up; when absent throw
`Todo does not exists`; otherwise splice it out at its index and rewrite
the document. -/
def deleteById (s : StorageState) (todoId : String) :
    Except StoreErr StorageState :=
  match findById s todoId with
  | .error e => .error e
  | .ok none => .error .notFound
  | .ok (some _) =>
    match find s with
    | .error e => .error e
    | .ok todos =>
      .ok (.ok (todos.eraseIdx (todos.findIdx (fun t => hasId t todoId))))

/- Validation: the two Joi schemas, under the default validate options
(abortEarly, unknown keys not allowed, empty strings not allowed for
Joi.string, convert on so Joi.boolean also accepts the strings true and
false).  The middleware destructures only the error of the result, so the
first error message is what reaches the response; the validated value,
which is where Joi injects the declared defaults, is discarded. -/

/-- Wrap a key in double quotes, as Joi error messages do. -/
def q (k : String) : String := "\x22" ++ k ++ "\x22"

/-- Joi.string(): must be a string and not empty. -/
def checkString (k : String) : JVal → Option String
  | .str s => if s = "" then some (q k ++ " is not allowed to be empty") else none
  | _ => some (q k ++ " must be a string")

/-- Joi.boolean() with convert on: a boolean, or a string that lowercases
to true or false — the default coercion is case-insensitive (the
boolean.sensitive() modifier, not used by these schemas, is what would
turn that off). -/
def checkBool (k : String) : JVal → Option String
  | .bool _ => none
  | .str s => if s.toLower = "true" ∨ s.toLower = "false" then none
              else some (q k ++ " must be a boolean")
  | _ => some (q k ++ " must be a boolean")

/-- abortEarly: keep the first error. -/
def firstErr : Option String → Option String → Option String
  | some e, _ => some e
  | none, r => r

/-- A required Joi.string() field. -/
def requiredString (body : JObj) (k : String) : Option String :=
  match jget body k with
  | none => some (q k ++ " is required")
  | some v => checkString k v

/-- An optional Joi.string() field. -/
def optionalString (body : JObj) (k : String) : Option String :=
  match jget body k with
  | none => none
  | some v => checkString k v

/-- An optional Joi.boolean() field. -/
def optionalBool (body : JObj) (k : String) : Option String :=
  match jget body k with
  | none => none
  | some v => checkBool k v

/-- The keys the two schemas declare. -/
def allowedKeys : List String := ["title", "completed", "description"]

/-- Joi objects reject unknown keys by default: the first binding whose
key is outside the schema produces a `is not allowed` error. -/
def firstUnknownKey (body : JObj) : Option String :=
  match body.find? (fun kv => ! allowedKeys.contains kv.1) with
  | some kv => some (q kv.1 ++ " is not allowed")
  | none => none

/-- todoSchema.validate(body).error: title required non-empty string,
completed optional boolean, description required non-empty string, no
unknown keys; none when the body is valid, otherwise the first message. -/
def validateCreate (body : JObj) : Option String :=
  firstErr (requiredString body "title")
    (firstErr (optionalBool body "completed")
      (firstErr (requiredString body "description")
        (firstUnknownKey body)))

/-- updateTodoSchema.validate(body).error: every field optional, same
types, no unknown keys. -/
def validateUpdate (body : JObj) : Option String :=
  firstErr (optionalString body "title")
    (firstErr (optionalBool body "completed")
      (firstErr (optionalString body "description")
        (firstUnknownKey body)))

/-- todoSchema.validate(body).value on a valid body: the default of the
completed field is injected into the returned value.  The middleware
discards this value; it is defined here to state what the schema declares. -/
def joiCreateValue (body : JObj) : JObj :=
  match jget body "completed" with
  | none => jset body "completed" (JVal.bool false)
  | some _ => body

/- Handlers.  An express handler either sends a response (status and JSON
body) or, when an awaited store promise rejects outside every try block,
fails with an unhandled rejection and sends nothing. -/

/-- A response body: a JSON object, a JSON array, or the empty body of
sendStatus. -/
inductive RBody where
  | json (o : JObj)
  | jsonArr (l : List JObj)
  | empty
  deriving DecidableEq

/-- Outcome of one handler run. -/
inductive HResult where
  | response (status : Nat) (body : RBody)
  | unhandled
  deriving DecidableEq

/-- The 400 body of the validation middleware. -/
def errBody (msg : String) : JObj := [("error", JVal.str msg)]

/-- The 200 body of the update handler: an object holding the id field of
the updated record (JSON serialization drops an undefined id). -/
def idBody (t : JObj) : JObj :=
  match jget t "id" with
  | some v => [("id", v)]
  | none => []

/-- getAllTodos: GET /todos.  No try block: a storage rejection is
unhandled. -/
def getAllTodos (s : StorageState) : HResult × StorageState :=
  match find s with
  | .error _ => (.unhandled, s)
  | .ok todos => (.response 200 (.jsonArr todos), s)

/-- getTodoById: GET /todos/:id.  200 with the record, 404 when absent;
no try block, a storage rejection is unhandled. -/
def getTodoById (s : StorageState) (i : String) : HResult × StorageState :=
  match findById s i with
  | .error _ => (.unhandled, s)
  | .ok (some t) => (.response 200 (.json t), s)
  | .ok none => (.response 404 .empty, s)

/-- createTodo: builds the record as spread of a fresh-id object then
spread of the raw request body, saves it, and answers 201 with a spread
copy of the whole saved record.  g is the uuid the store generates.  No
try block: a storage rejection is unhandled. -/
def createTodo (g : String) (s : StorageState) (body : JObj) :
    HResult × StorageState :=
  match save s (jmerge [("id", JVal.str g)] body) with
  | .error _ => (.unhandled, s)
  | .ok (newTodo, s') => (.response 201 (.json newTodo), s')

/-- updateTodo: PUT handler body.  The try block catches every rejection
of updateByIdAndUpdate, the not-found throw and StorageError alike, and
answers 404; on success 200 with the id of the merged record. -/
def updateTodo (s : StorageState) (i : String) (body : JObj) :
    HResult × StorageState :=
  match updateByIdAndUpdate s i body with
  | .error _ => (.response 404 .empty, s)
  | .ok (updated, s') => (.response 200 (.json (idBody updated)), s')

/-- deleteTodo: DELETE handler.  The try block likewise catches every
rejection and answers 404; on success 200. -/
def deleteTodo (s : StorageState) (i : String) : HResult × StorageState :=
  match deleteById s i with
  | .error _ => (.response 404 .empty, s)
  | .ok s' => (.response 200 .empty, s')

/-- The POST /todos route: validateBody(todoSchema) then createTodo.  On a
validation error the middleware answers 400 with the first message and the
handler never runs. -/
def postTodos (g : String) (s : StorageState) (body : JObj) :
    HResult × StorageState :=
  match validateCreate body with
  | some msg => (.response 400 (.json (errBody msg)), s)
  | none => createTodo g s body

/-- The PUT /todos/:id route: validateBody(updateTodoSchema) then
updateTodo. -/
def putTodos (s : StorageState) (i : String) (body : JObj) :
    HResult × StorageState :=
  match validateUpdate body with
  | some msg => (.response 400 (.json (errBody msg)), s)
  | none => updateTodo s i body

/- Helper lemmas about object field access, merge and the validators. -/

theorem jget_jset_self (o : JObj) (k : String) (v : JVal) :
    jget (jset o k v) k = some v := by
  induction o with
  | nil => simp [jset, jget]
  | cons kv rest ih =>
    by_cases h : kv.1 = k
    · simp [jset, h, jget]
    · simpa [jset, h, jget] using ih

theorem jget_jset_ne (o : JObj) (k k' : String) (v : JVal) (h : k ≠ k') :
    jget (jset o k v) k' = jget o k' := by
  induction o with
  | nil => simp [jset, jget, h]
  | cons kv rest ih =>
    cases kv with
    | mk k0 v0 =>
      by_cases hk : k0 = k
      · subst hk
        simp [jset, jget, h]
      · by_cases hk' : k0 = k'
        · simp [jset, jget, hk, hk', Ne.symm h]
        · simpa [jset, jget, hk, hk'] using ih

theorem forall_of_jget_eq_none (o : JObj) (k : String) (h : jget o k = none) :
    ∀ kv ∈ o, kv.1 ≠ k := by
  induction o with
  | nil => simp
  | cons kv rest ih =>
    by_cases hk : kv.1 = k
    · simp [jget, hk] at h
    · intro x hx
      rcases List.mem_cons.mp hx with rfl | hx
      · exact hk
      · exact ih (by simpa [jget, hk] using h) x hx

theorem jget_eq_none_of_forall (o : JObj) (k : String)
    (h : ∀ kv ∈ o, kv.1 ≠ k) : jget o k = none := by
  induction o with
  | nil => rfl
  | cons kv rest ih =>
    have hk : kv.1 ≠ k := h kv (List.mem_cons_self kv rest)
    simpa [jget, hk] using ih fun x hx => h x (List.mem_cons_of_mem kv hx)

theorem jmerge_nil (a : JObj) : jmerge a [] = a := rfl

theorem jmerge_cons (a : JObj) (k : String) (v : JVal) (rest : JObj) :
    jmerge a ((k, v) :: rest) = jmerge (jset a k v) rest := rfl

theorem jmerge_single (a : JObj) (k : String) (v : JVal) :
    jmerge a [(k, v)] = jset a k v := rfl

theorem jget_jmerge_of_none (a b : JObj) (k : String) (h : jget b k = none) :
    jget (jmerge a b) k = jget a k := by
  induction b generalizing a with
  | nil => rfl
  | cons kv rest ih =>
    have hk : kv.1 ≠ k :=
      forall_of_jget_eq_none _ _ h kv (List.mem_cons_self kv rest)
    have hrest : jget rest k = none := by
      cases kv with
      | mk k' v' => simpa [jget, hk] using h
    calc jget (jmerge a (kv :: rest)) k
        = jget (jmerge (jset a kv.1 kv.2) rest) k := rfl
      _ = jget (jset a kv.1 kv.2) k := ih _ hrest
      _ = jget a k := jget_jset_ne _ _ _ _ hk

theorem jget_jmerge_of_some (a b : JObj) (k : String) (v : JVal)
    (hnd : (b.map Prod.fst).Nodup) (h : jget b k = some v) :
    jget (jmerge a b) k = some v := by
  induction b generalizing a with
  | nil => simp [jget] at h
  | cons kv rest ih =>
    cases kv with
    | mk k0 v0 =>
      have hnd2 : (∀ x : JVal, (k0, x) ∉ rest) ∧ (rest.map Prod.fst).Nodup := by
        simpa using hnd
      have hnd' := hnd2.2
      by_cases hk : k0 = k
      · have hv : v0 = v := by simpa [jget, hk] using h
        have hrest : jget rest k = none := by
          refine jget_eq_none_of_forall _ _ fun x hx hx1 => ?_
          rcases x with ⟨x1, x2⟩
          exact hnd2.1 x2 ((show x1 = k0 from hx1.trans hk.symm) ▸ hx)
        calc jget (jmerge a ((k0, v0) :: rest)) k
            = jget (jmerge (jset a k0 v0) rest) k := rfl
          _ = jget (jset a k0 v0) k := jget_jmerge_of_none _ _ _ hrest
          _ = some v := by rw [hk, hv]; exact jget_jset_self _ _ _
      · have hrest : jget rest k = some v := by simpa [jget, hk] using h
        exact ih hnd' hrest (a := jset a k0 v0)

theorem firstErr_eq_none {a b : Option String} (h : firstErr a b = none) :
    a = none ∧ b = none := by
  cases a with
  | none => exact ⟨rfl, h⟩
  | some e => exact absurd h (by simp [firstErr])

theorem validateCreate_keys_allowed (body : JObj)
    (h : validateCreate body = none) :
    ∀ kv ∈ body, allowedKeys.contains kv.1 = true := by
  have h1 := firstErr_eq_none h
  have h2 := firstErr_eq_none h1.2
  have h3 := firstErr_eq_none h2.2
  have hu : firstUnknownKey body = none := h3.2
  unfold firstUnknownKey at hu
  intro kv hkv
  rcases hfind : body.find? (fun kv => ! allowedKeys.contains kv.1) with _ | kv'
  · have := List.find?_eq_none.mp hfind kv hkv
    simpa using this
  · rw [hfind] at hu
    exact absurd hu (by simp)

theorem validateUpdate_keys_allowed (body : JObj)
    (h : validateUpdate body = none) :
    ∀ kv ∈ body, allowedKeys.contains kv.1 = true := by
  have h1 := firstErr_eq_none h
  have h2 := firstErr_eq_none h1.2
  have h3 := firstErr_eq_none h2.2
  have hu : firstUnknownKey body = none := h3.2
  unfold firstUnknownKey at hu
  intro kv hkv
  rcases hfind : body.find? (fun kv => ! allowedKeys.contains kv.1) with _ | kv'
  · have := List.find?_eq_none.mp hfind kv hkv
    simpa using this
  · rw [hfind] at hu
    exact absurd hu (by simp)

theorem validateCreate_no_id (body : JObj) (h : validateCreate body = none) :
    jget body "id" = none := by
  refine jget_eq_none_of_forall _ _ fun kv hkv hid => ?_
  have := validateCreate_keys_allowed body h kv hkv
  rw [hid] at this
  simp [allowedKeys] at this

theorem validateUpdate_no_id (body : JObj) (h : validateUpdate body = none) :
    jget body "id" = none := by
  refine jget_eq_none_of_forall _ _ fun kv hkv hid => ?_
  have := validateUpdate_keys_allowed body h kv hkv
  rw [hid] at this
  simp [allowedKeys] at this

/-- A record at a known position in the collection, with no earlier match:
the filter-based lookup finds it, findIndex locates its index, splice with
a replacement rewrites exactly that position, splice-removal deletes
exactly that position. -/
theorem locate_at (p : JObj → Bool) (l1 l2 : List JObj) (t : JObj)
    (h1 : ∀ x ∈ l1, p x = false) (ht : p t = true) :
    ((l1 ++ t :: l2).filter p).head? = some t ∧
    (l1 ++ t :: l2).findIdx p = l1.length ∧
    (∀ u, (l1 ++ t :: l2).set l1.length u = l1 ++ u :: l2) ∧
    (l1 ++ t :: l2).eraseIdx l1.length = l1 ++ l2 := by
  induction l1 with
  | nil =>
    refine ⟨?_, ?_, ?_, ?_⟩
    · simp [List.filter_cons, ht]
    · simp [List.findIdx_cons, ht]
    · intro u
      simp [List.set]
    · simp [List.eraseIdx]
  | cons a l1 ih =>
    have ha : p a = false := h1 a (List.mem_cons_self a l1)
    have ih' := ih fun x hx => h1 x (List.mem_cons_of_mem a hx)
    refine ⟨?_, ?_, ?_, ?_⟩
    · simpa [List.filter_cons, ha] using ih'.1
    · simp [List.findIdx_cons, ha, ih'.2.1]
    · intro u
      simp [List.set, ih'.2.2.1 u]
    · simpa [List.eraseIdx] using ih'.2.2.2

/-- No record in the list matches: the filter-based lookup is empty. -/
theorem filter_none_of_forall (p : JObj → Bool) (l : List JObj)
    (h : ∀ x ∈ l, p x = false) : l.filter p = [] := by
  simpa using List.filter_eq_nil_iff.mpr (by simpa using h)

/-- The Bool comparison of the store in Prop form. -/
theorem hasId_iff (t : JObj) (i : String) :
    hasId t i = true ↔ jget t "id" = some (JVal.str i) := by
  simp [hasId]

/-- A required string field that validates is present. -/
theorem requiredString_some (body : JObj) (k : String)
    (h : requiredString body k = none) : ∃ v, jget body k = some v := by
  unfold requiredString at h
  rcases hg : jget body k with _ | v
  · rw [hg] at h
    exact absurd h (by simp)
  · exact ⟨v, rfl⟩

/-- Behaviour of the update helper on a readable document, expressed
through the filter-based lookup and findIndex of the source. -/
theorem updateByIdAndUpdate_ok (ts : List JObj) (i : String) (upd : JObj) :
    updateByIdAndUpdate (.ok ts) i upd
      = match (ts.filter (fun r => hasId r i)).head? with
        | none => .error .notFound
        | some t => .ok (jmerge t upd,
            .ok (ts.set (ts.findIdx (fun r => hasId r i)) (jmerge t upd))) := by
  rcases h : (ts.filter (fun r => hasId r i)).head? with _ | t <;>
    simp [updateByIdAndUpdate, findById, find, h]

/-- Behaviour of the delete helper on a readable document. -/
theorem deleteById_ok (ts : List JObj) (i : String) :
    deleteById (.ok ts) i
      = match (ts.filter (fun r => hasId r i)).head? with
        | none => .error .notFound
        | some _ =>
            .ok (.ok (ts.eraseIdx (ts.findIdx (fun r => hasId r i)))) := by
  rcases h : (ts.filter (fun r => hasId r i)).head? with _ | t <;>
    simp [deleteById, findById, find, h]

/-- Replacing the first matching record by a merge that keeps its id
leaves the sequence of ids of the collection unchanged. -/
theorem set_merge_preserves_ids (i : String) (upd : JObj)
    (hupd : jget upd "id" = none) (ts : List JObj) (t : JObj)
    (h : (ts.filter (fun r => hasId r i)).head? = some t) :
    (ts.set (ts.findIdx (fun r => hasId r i)) (jmerge t upd)).map
        (fun r => jget r "id")
      = ts.map (fun r => jget r "id") := by
  induction ts with
  | nil => simp at h
  | cons a rest ih =>
    cases hp : hasId a i with
    | true =>
      have hta : t = a := by
        rw [List.filter_cons_of_pos (by simpa using hp)] at h
        simpa using h.symm
      subst hta
      simp [List.findIdx_cons, hp, jget_jmerge_of_none _ _ _ hupd]
    | false =>
      have h' : (rest.filter (fun r => hasId r i)).head? = some t := by
        rwa [List.filter_cons_of_neg (by simp [hp])] at h
      simp [List.findIdx_cons, hp, ih h']

/- Claim theorems. -/

/-- C1: the valid create payload of the spec example, which omits the
completed field, is persisted WITHOUT any completed field.  The schema
declares a default of false, but validateBody destructures only the error
of schema.validate and discards the validated value, which is where Joi
injects the default (joiCreateValue); the raw body is spread into the
record, so the persisted record — and the body a subsequent GET of the id
returns — lacks completed instead of carrying completed = false. -/
theorem create_discards_completed_default :
    validateCreate [("title", JVal.str "Buy groceries"),
        ("description", JVal.str "I should buy groceries")] = none ∧
    jget (joiCreateValue [("title", JVal.str "Buy groceries"),
        ("description", JVal.str "I should buy groceries")]) "completed"
      = some (JVal.bool false) ∧
    postTodos "u-1" (.ok []) [("title", JVal.str "Buy groceries"),
        ("description", JVal.str "I should buy groceries")]
      = (.response 201 (.json [("id", JVal.str "u-1"),
            ("title", JVal.str "Buy groceries"),
            ("description", JVal.str "I should buy groceries")]),
         .ok [[("id", JVal.str "u-1"), ("title", JVal.str "Buy groceries"),
            ("description", JVal.str "I should buy groceries")]]) ∧
    jget [("id", JVal.str "u-1"), ("title", JVal.str "Buy groceries"),
        ("description", JVal.str "I should buy groceries")] "completed" = none ∧
    (getTodoById (.ok [[("id", JVal.str "u-1"),
        ("title", JVal.str "Buy groceries"),
        ("description", JVal.str "I should buy groceries")]]) "u-1").1
      = .response 200 (.json [("id", JVal.str "u-1"),
          ("title", JVal.str "Buy groceries"),
          ("description", JVal.str "I should buy groceries")]) := by
  decide

/-- C2: the create route answers 201, but the body is a spread copy of
the whole saved record (id, title, description), not an object holding
only the id as the claim — and the header comment of the source file —
state. -/
theorem create_response_full_record :
    (postTodos "u-1" (.ok []) [("title", JVal.str "Buy groceries"),
        ("description", JVal.str "I should buy groceries")]).1
      = .response 201 (.json [("id", JVal.str "u-1"),
          ("title", JVal.str "Buy groceries"),
          ("description", JVal.str "I should buy groceries")]) ∧
    (postTodos "u-1" (.ok []) [("title", JVal.str "Buy groceries"),
        ("description", JVal.str "I should buy groceries")]).1
      ≠ .response 201 (.json [("id", JVal.str "u-1")]) := by
  decide

/-- C3 counterexample: with the storage document unreadable, the PUT
route catches the StorageError in its catch-all try block and answers
404 instead of failing unhandled, refuting the claim that a StorageError
is never mapped to a 404 response. -/
theorem storage_error_mapped_to_404_cex :
    putTodos .bad "a" [] = (.response 404 .empty, .bad) ∧
    putTodos .bad "a" [] ≠ (.unhandled, .bad) := by
  decide

/-- C3 (amended): a StorageError is indeed not caught by the list, get
and create handlers, where it surfaces as an unhandled failure; but the
update and delete handlers wrap their store call in a catch-all try
block, so there a StorageError IS caught and mapped to 404. -/
theorem storage_error_propagation (i g : String) (b : JObj) :
    getAllTodos .bad = (.unhandled, .bad) ∧
    getTodoById .bad i = (.unhandled, .bad) ∧
    (validateCreate b = none → postTodos g .bad b = (.unhandled, .bad)) ∧
    (validateUpdate b = none →
      putTodos .bad i b = (.response 404 .empty, .bad)) ∧
    deleteTodo .bad i = (.response 404 .empty, .bad) := by
  refine ⟨rfl, rfl, fun hv => ?_, fun hv => ?_, rfl⟩
  · unfold postTodos
    rw [hv]
    rfl
  · unfold putTodos
    rw [hv]
    rfl

/-- C3 witness: the amended statement at a concrete valid body. -/
theorem storage_error_propagation_witness :
    postTodos "g" .bad [("title", JVal.str "a"),
        ("description", JVal.str "b")] = (.unhandled, .bad) ∧
    putTodos .bad "x" [("title", JVal.str "a"),
        ("description", JVal.str "b")] = (.response 404 .empty, .bad) :=
  ⟨(storage_error_propagation "x" "g" [("title", JVal.str "a"),
      ("description", JVal.str "b")]).2.2.1 (by decide),
   (storage_error_propagation "x" "g" [("title", JVal.str "a"),
      ("description", JVal.str "b")]).2.2.2.1 (by decide)⟩

/-- C4 counterexample: a PUT body carrying the unknown field foo is
rejected with 400 by the update validator (Joi objects reject unknown
keys by default) and the record is left unmerged, refuting the claim
that the unknown field is silently accepted into the merged record. -/
theorem update_unknown_field_rejected_cex :
    putTodos (.ok [[("id", JVal.str "1"), ("title", JVal.str "a"),
        ("description", JVal.str "b")]]) "1"
        [("title", JVal.str "x"), ("foo", JVal.str "y")]
      = (.response 400 (.json (errBody (q "foo" ++ " is not allowed"))),
         .ok [[("id", JVal.str "1"), ("title", JVal.str "a"),
            ("description", JVal.str "b")]]) := by
  decide

/-- C4 (amended): every PUT whose body carries a field outside title,
completed and description is rejected: validation reports the unknown
key, the route answers 400 with that message, and the storage is left
untouched — unknown fields never reach the merge. -/
theorem update_rejects_unknown_fields (s : StorageState) (i k : String)
    (v : JVal) (body : JObj) (hmem : (k, v) ∈ body)
    (hk : allowedKeys.contains k = false) :
    ∃ msg, putTodos s i body = (.response 400 (.json (errBody msg)), s) := by
  have hval : validateUpdate body ≠ none := by
    intro hnone
    have := validateUpdate_keys_allowed body hnone (k, v) hmem
    have hk' : k ∉ allowedKeys := by simpa using hk
    simp at this
    exact hk' this
  rcases hmsg : validateUpdate body with _ | msg
  · exact absurd hmsg hval
  · exact ⟨msg, by unfold putTodos; rw [hmsg]⟩

/-- C4 witness: the amended statement at a concrete body. -/
theorem update_rejects_unknown_fields_witness :
    ∃ msg, putTodos (.ok []) "1" [("foo", JVal.str "y")]
      = (.response 400 (.json (errBody msg)), .ok []) :=
  update_rejects_unknown_fields (.ok []) "1" "foo" (JVal.str "y")
    [("foo", JVal.str "y")] (List.mem_singleton.mpr rfl) (by decide)

/-- C5: the id of a persisted record is assigned by the store.  A body
that passes create validation cannot carry an id field (unknown keys are
rejected), so the spread of the fresh-id object then the body keeps the
generated id and the create route appends exactly that record; and a body
that passes update validation cannot carry an id either, so a PUT leaves
the sequence of ids of the stored collection unchanged. -/
theorem id_assigned_by_store_and_immutable (g i : String) (ts : List JObj)
    (body upd : JObj) (hc : validateCreate body = none)
    (hu : validateUpdate upd = none) :
    jget (jmerge [("id", JVal.str g)] body) "id" = some (JVal.str g) ∧
    (postTodos g (.ok ts) body).2
      = .ok (ts ++ [jmerge [("id", JVal.str g)] body]) ∧
    ∃ ts', (putTodos (.ok ts) i upd).2 = .ok ts' ∧
      ts'.map (fun r => jget r "id") = ts.map (fun r => jget r "id") := by
  refine ⟨?_, ?_, ?_⟩
  · rw [jget_jmerge_of_none _ _ _ (validateCreate_no_id body hc)]
    rfl
  · unfold postTodos
    rw [hc]
    rfl
  · unfold putTodos
    rw [hu]
    unfold updateTodo
    rw [updateByIdAndUpdate_ok]
    rcases h : (ts.filter (fun r => hasId r i)).head? with _ | t
    · exact ⟨ts, rfl, rfl⟩
    · exact ⟨_, rfl,
        set_merge_preserves_ids i upd (validateUpdate_no_id upd hu) ts t h⟩

/-- C5 witness. -/
theorem id_assigned_by_store_and_immutable_witness :
    jget (jmerge [("id", JVal.str "u-1")]
        [("title", JVal.str "a"), ("description", JVal.str "b")]) "id"
      = some (JVal.str "u-1") ∧
    (postTodos "u-1" (.ok [])
        [("title", JVal.str "a"), ("description", JVal.str "b")]).2
      = .ok ([] ++ [jmerge [("id", JVal.str "u-1")]
          [("title", JVal.str "a"), ("description", JVal.str "b")]]) ∧
    ∃ ts', (putTodos (.ok []) "z" [("completed", JVal.bool true)]).2
        = .ok ts' ∧
      ts'.map (fun r => jget r "id")
        = ([] : List JObj).map (fun r => jget r "id") :=
  id_assigned_by_store_and_immutable "u-1" "z" []
    [("title", JVal.str "a"), ("description", JVal.str "b")]
    [("completed", JVal.bool true)] (by decide) (by decide)

/-- C6: a PUT whose body supplies only completed merges onto the stored
record in place: the merged record carries the new completed value, every
other field keeps its prior value, the record is replaced at its own
position and all other records are untouched. -/
theorem update_completed_only_frame (ts l1 l2 : List JObj) (t : JObj)
    (i : String) (c : Bool) (hts : ts = l1 ++ t :: l2)
    (h1 : ∀ x ∈ l1, hasId x i = false) (ht : hasId t i = true) :
    putTodos (.ok ts) i [("completed", JVal.bool c)]
      = (.response 200 (.json (idBody (jset t "completed" (JVal.bool c)))),
         .ok (l1 ++ jset t "completed" (JVal.bool c) :: l2)) ∧
    jget (jset t "completed" (JVal.bool c)) "completed"
      = some (JVal.bool c) ∧
    ∀ k, k ≠ "completed" →
      jget (jset t "completed" (JVal.bool c)) k = jget t k := by
  subst hts
  obtain ⟨hhead, hidx, hset, _⟩ := locate_at (fun r => hasId r i) l1 l2 t h1 ht
  refine ⟨?_, jget_jset_self t _ _,
    fun k hk => jget_jset_ne t _ k _ (Ne.symm hk)⟩
  have hval : validateUpdate [("completed", JVal.bool c)] = none := rfl
  unfold putTodos
  rw [hval]
  unfold updateTodo
  rw [updateByIdAndUpdate_ok, hhead]
  simp only [hidx, hset]
  rfl

/-- C6 witness. -/
theorem update_completed_only_frame_witness :
    putTodos (.ok ([] ++ [("id", JVal.str "1"), ("title", JVal.str "a"),
        ("description", JVal.str "b")] :: [])) "1"
        [("completed", JVal.bool true)]
      = (.response 200 (.json (idBody (jset [("id", JVal.str "1"),
            ("title", JVal.str "a"), ("description", JVal.str "b")]
            "completed" (JVal.bool true)))),
         .ok ([] ++ jset [("id", JVal.str "1"), ("title", JVal.str "a"),
            ("description", JVal.str "b")] "completed" (JVal.bool true)
            :: [])) :=
  (update_completed_only_frame _ [] [] [("id", JVal.str "1"),
      ("title", JVal.str "a"), ("description", JVal.str "b")] "1" true
    rfl (by simp) (by decide)).1

/-- C7: whenever the create body fails the schema, the POST route answers
400 with the first violated constraint and the storage is untouched (the
handler never runs); with the title missing, that first message is the
title-is-required message. -/
theorem post_invalid_body_400_no_write (g : String) (s : StorageState)
    (body : JObj) (msg : String) (h : validateCreate body = some msg) :
    postTodos g s body = (.response 400 (.json (errBody msg)), s) ∧
    (jget body "title" = none → msg = q "title" ++ " is required") := by
  constructor
  · unfold postTodos
    rw [h]
  · intro htitle
    unfold validateCreate requiredString at h
    rw [htitle] at h
    simp [firstErr] at h
    exact h.symm

/-- C7 witness: a body with the title missing. -/
theorem post_invalid_body_400_no_write_witness :
    postTodos "g" (.ok []) [("description", JVal.str "b")]
      = (.response 400 (.json (errBody (q "title" ++ " is required"))),
         .ok []) :=
  (post_invalid_body_400_no_write "g" (.ok [])
    [("description", JVal.str "b")] (q "title" ++ " is required")
    (by decide)).1

/-- C8: an id present in the collection, under the no-two-records-share-
an-id invariant (the matching record is unique): DELETE succeeds with
200, removing exactly that record, and a subsequent GET of the same id
answers 404. -/
theorem delete_then_get_404 (ts l1 l2 : List JObj) (t : JObj) (i : String)
    (hts : ts = l1 ++ t :: l2) (h1 : ∀ x ∈ l1, hasId x i = false)
    (ht : hasId t i = true) (h2 : ∀ x ∈ l2, hasId x i = false) :
    deleteTodo (.ok ts) i = (.response 200 .empty, .ok (l1 ++ l2)) ∧
    (getTodoById (.ok (l1 ++ l2)) i).1 = .response 404 .empty := by
  subst hts
  obtain ⟨hhead, hidx, _, herase⟩ := locate_at (fun r => hasId r i) l1 l2 t h1 ht
  constructor
  · unfold deleteTodo
    rw [deleteById_ok, hhead]
    simp only [hidx, herase]
  · have hfil : (l1 ++ l2).filter (fun r => hasId r i) = [] :=
      filter_none_of_forall _ _ fun x hx => by
        rcases List.mem_append.mp hx with h | h
        · exact h1 x h
        · exact h2 x h
    simp [getTodoById, findById, find, hfil]

/-- C8 witness. -/
theorem delete_then_get_404_witness :
    deleteTodo (.ok ([] ++ [("id", JVal.str "1")] :: [])) "1"
      = (.response 200 .empty, .ok (([] : List JObj) ++ [])) ∧
    (getTodoById (.ok (([] : List JObj) ++ [])) "1").1
      = .response 404 .empty :=
  delete_then_get_404 _ [] [] [("id", JVal.str "1")] "1" rfl (by simp)
    (by decide) (by simp)

/-- C9: when the generated uuid is fresh for the collection (the
uniqueness the store relies on), a valid create payload is appended as
the record spread-of-id-then-body, the answered id is the generated one,
exactly one record of the new collection carries it, and a subsequent GET
of that id answers 200 with the created record, whose title, description
and completed fields are those of the payload (keys of a parsed JSON body
are distinct). -/
theorem create_then_get_roundtrip (g : String) (ts : List JObj)
    (body : JObj) (hfresh : ∀ t ∈ ts, hasId t g = false)
    (hnd : (body.map Prod.fst).Nodup)
    (hv : validateCreate body = none) :
    postTodos g (.ok ts) body
      = (.response 201 (.json (jmerge [("id", JVal.str g)] body)),
         .ok (ts ++ [jmerge [("id", JVal.str g)] body])) ∧
    jget (jmerge [("id", JVal.str g)] body) "id" = some (JVal.str g) ∧
    ((ts ++ [jmerge [("id", JVal.str g)] body]).filter
        (fun r => hasId r g)).length = 1 ∧
    (getTodoById (.ok (ts ++ [jmerge [("id", JVal.str g)] body])) g).1
      = .response 200 (.json (jmerge [("id", JVal.str g)] body)) ∧
    jget (jmerge [("id", JVal.str g)] body) "title" = jget body "title" ∧
    jget (jmerge [("id", JVal.str g)] body) "description"
      = jget body "description" ∧
    jget (jmerge [("id", JVal.str g)] body) "completed"
      = jget body "completed" := by
  have hid : jget body "id" = none := validateCreate_no_id body hv
  have hgid : jget (jmerge [("id", JVal.str g)] body) "id"
      = some (JVal.str g) := by
    rw [jget_jmerge_of_none _ _ _ hid]
    rfl
  have hfil : (ts ++ [jmerge [("id", JVal.str g)] body]).filter
      (fun r => hasId r g) = [jmerge [("id", JVal.str g)] body] := by
    rw [List.filter_append, filter_none_of_forall _ _ hfresh]
    simp [List.filter_cons, (hasId_iff _ _).mpr hgid]
  refine ⟨?_, hgid, ?_, ?_, ?_, ?_, ?_⟩
  · unfold postTodos
    rw [hv]
    rfl
  · rw [hfil]
    rfl
  · simp [getTodoById, findById, find, hfil]
  · obtain ⟨v, hvv⟩ := requiredString_some body "title"
      (firstErr_eq_none hv).1
    rw [hvv, jget_jmerge_of_some _ _ _ _ hnd hvv]
  · obtain ⟨v, hvv⟩ := requiredString_some body "description"
      (firstErr_eq_none (firstErr_eq_none (firstErr_eq_none hv).2).2).1
    rw [hvv, jget_jmerge_of_some _ _ _ _ hnd hvv]
  · rcases hvv : jget body "completed" with _ | v
    · rw [jget_jmerge_of_none _ _ _ hvv]
      rfl
    · rw [jget_jmerge_of_some _ _ _ _ hnd hvv]

/-- C9 witness. -/
theorem create_then_get_roundtrip_witness :
    postTodos "u-1" (.ok [])
        [("title", JVal.str "a"), ("description", JVal.str "b")]
      = (.response 201 (.json (jmerge [("id", JVal.str "u-1")]
            [("title", JVal.str "a"), ("description", JVal.str "b")])),
         .ok ([] ++ [jmerge [("id", JVal.str "u-1")]
            [("title", JVal.str "a"), ("description", JVal.str "b")]])) :=
  (create_then_get_roundtrip "u-1" []
    [("title", JVal.str "a"), ("description", JVal.str "b")]
    (by simp) (by decide) (by decide)).1

/-- C10: for an id present in the collection, a PUT with the empty JSON
body passes validation, merges nothing onto the record, rewrites it
unchanged at its own position, and answers 200 with the id object: the
empty update is an identity on the stored collection. -/
theorem empty_update_identity (ts l1 l2 : List JObj) (t : JObj)
    (i : String) (hts : ts = l1 ++ t :: l2)
    (h1 : ∀ x ∈ l1, hasId x i = false) (ht : hasId t i = true) :
    validateUpdate [] = none ∧
    putTodos (.ok ts) i []
      = (.response 200 (.json [("id", JVal.str i)]), .ok ts) := by
  subst hts
  obtain ⟨hhead, hidx, hset, _⟩ := locate_at (fun r => hasId r i) l1 l2 t h1 ht
  refine ⟨rfl, ?_⟩
  have hid : jget t "id" = some (JVal.str i) := (hasId_iff t i).mp ht
  have hval : validateUpdate ([] : JObj) = none := rfl
  unfold putTodos
  rw [hval]
  unfold updateTodo
  rw [updateByIdAndUpdate_ok, hhead]
  simp only [hidx, hset]
  simp [jmerge, idBody, hid]

/-- C10 witness. -/
theorem empty_update_identity_witness :
    validateUpdate [] = none ∧
    putTodos (.ok ([] ++ [("id", JVal.str "1")] :: [])) "1" []
      = (.response 200 (.json [("id", JVal.str "1")]),
         .ok ([] ++ [("id", JVal.str "1")] :: [])) :=
  empty_update_identity _ [] [] [("id", JVal.str "1")] "1" rfl (by simp)
    (by decide)

end TodoServer
